import Mathlib

/-!
Verification of the student REST API (src/app.py).

The program is a Flask service over a module-level dictionary
`students : dict[int, record]`.  We embed it shallowly:

* a `Student` record mirrors the JSON objects stored in the dictionary;
* a `Store` is an association list with unique keys, the dictionary;
* a request body is either absent / not JSON (`none`) or a JSON object
  (`some b : Body`) recording which of the four known keys are present
  together with the number of unrecognised keys (`extra`), which matters
  because Python truthiness of a dict (`not request.json`) is emptiness;
* each route handler becomes a function from the store and the parsed
  request to the status code, the optional JSON record of the response,
  and the resulting store.
-/

/-- A student record as stored in the dictionary and serialised to JSON. -/
structure Student where
  ID : Nat
  Name : String
  Grade : String
  Email : String
deriving DecidableEq, Repr

/-- The in-memory dictionary `students`, as an association list keyed by ID.
Python dictionaries have unique keys; reachable stores satisfy this (proved
below), and the operations mirror dictionary semantics on such lists. -/
abbrev Store := List (Nat × Student)

/-- The keys of the dictionary, `students.keys()`. -/
def Store.keys (s : Store) : List Nat := s.map Prod.fst

/-- Dictionary lookup, `students.get(student_id)`. -/
def Store.get? : Store → Nat → Option Student
  | [], _ => none
  | p :: rest, k => if p.1 = k then some p.2 else Store.get? rest k

/-- Dictionary assignment, `students[k] = v`: replace the entry if the key
is present, otherwise append it. -/
def Store.insert : Store → Nat → Student → Store
  | [], k, v => [(k, v)]
  | p :: rest, k, v => if p.1 = k then (k, v) :: rest else p :: Store.insert rest k v

/-- Dictionary deletion, `del students[k]`. -/
def Store.erase : Store → Nat → Store
  | [], _ => []
  | p :: rest, k => if p.1 = k then Store.erase rest k else p :: Store.erase rest k

/-- `max(students.keys(), default=0)`: keys are naturals, so folding `max`
from `0` agrees with the Python maximum with default `0`. -/
def Store.maxKey : Store → Nat
  | [] => 0
  | p :: rest => max p.1 (Store.maxKey rest)

/-- A JSON object request body.  `idField`, `Name`, `Grade`, `Email` record
the values of the recognised keys when present; `extra` counts any other
keys, so that emptiness of the whole object is representable. -/
structure Body where
  idField : Option Int
  Name : Option String
  Grade : Option String
  Email : Option String
  extra : Nat
deriving DecidableEq, Repr

/-- Python truthiness of the dict `request.json`: true iff it has a key. -/
def Body.nonempty (b : Body) : Bool :=
  b.idField.isSome || b.Name.isSome || b.Grade.isSome || b.Email.isSome || b.extra != 0

/-- GET `/students/<int:student_id>` (`get_student` in app.py):
404 when absent, otherwise 200 with the record. -/
def get_student (store : Store) (student_id : Nat) : Nat × Option Student :=
  match Store.get? store student_id with
  | none => (404, none)
  | some student => (200, some student)

/-- POST `/students` (`create_student` in app.py).  The request body is
`none` when missing or not JSON.  `abort(400)` when
`not request.json or not ('Name' in request.json)`; otherwise build the
record with `new_id = max(students.keys(), default=0) + 1`, defaults
`Grade = "N/A"` and `Email = ""`, store it and answer 201 with it. -/
def create_student (store : Store) (body : Option Body) : Nat × Option Student × Store :=
  match body with
  | none => (400, none, store)
  | some b =>
    match b.Name with
    | none => (400, none, store)
    | some name =>
      if b.nonempty = false then (400, none, store)
      else
        let new_id := Store.maxKey store + 1
        let new_student : Student :=
          ⟨new_id, name, b.Grade.getD "N/A", b.Email.getD ""⟩
        (201, some new_student, Store.insert store new_id new_student)

/-- PUT `/students/<int:student_id>` (`update_student` in app.py).
404 when the id is absent; `abort(400)` when `not request.json`, which for
a JSON object means it is empty; otherwise each of `Name`, `Grade`, `Email`
is taken from the body when present and kept otherwise, the record is
stored back under the same key, and the answer is 200 with it. -/
def update_student (store : Store) (student_id : Nat) (body : Option Body) :
    Nat × Option Student × Store :=
  match Store.get? store student_id with
  | none => (404, none, store)
  | some student =>
    match body with
    | none => (400, none, store)
    | some b =>
      if b.nonempty = false then (400, none, store)
      else
        let updated : Student :=
          ⟨student.ID, b.Name.getD student.Name, b.Grade.getD student.Grade,
            b.Email.getD student.Email⟩
        (200, some updated, Store.insert store student_id updated)

/-- DELETE `/students/<int:student_id>` (`delete_student` in app.py):
204 after `del students[student_id]` when present, else 404. -/
def delete_student (store : Store) (student_id : Nat) : Nat × Store :=
  if student_id ∈ Store.keys store then (204, Store.erase store student_id)
  else (404, store)

/-! ### Basic association-list lemmas -/

theorem Store.get?_insert_self (s : Store) (k : Nat) (v : Student) :
    Store.get? (Store.insert s k v) k = some v := by
  induction s with
  | nil => simp [Store.insert, Store.get?]
  | cons p rest ih =>
    by_cases h : p.1 = k
    · simp [Store.insert, Store.get?, h]
    · simp [Store.insert, Store.get?, h, ih]

theorem Store.get?_insert_of_ne (s : Store) (k k' : Nat) (v : Student) (h : k' ≠ k) :
    Store.get? (Store.insert s k v) k' = Store.get? s k' := by
  have h' : k ≠ k' := Ne.symm h
  induction s with
  | nil => simp [Store.insert, Store.get?, h']
  | cons p rest ih =>
    by_cases hp : p.1 = k
    · simp [Store.insert, Store.get?, hp, h']
    · by_cases hp' : p.1 = k'
      · simp [Store.insert, Store.get?, hp, hp', h]
      · simp [Store.insert, Store.get?, hp, hp', ih]

theorem Store.get?_erase_self (s : Store) (k : Nat) :
    Store.get? (Store.erase s k) k = none := by
  induction s with
  | nil => simp [Store.erase, Store.get?]
  | cons p rest ih =>
    by_cases h : p.1 = k
    · simp [Store.erase, h, ih]
    · simp [Store.erase, Store.get?, h, ih]

theorem Store.get?_eq_none_of_not_mem_keys (s : Store) (k : Nat)
    (h : k ∉ Store.keys s) :
    Store.get? s k = none := by
  induction s with
  | nil => simp [Store.get?]
  | cons p rest ih =>
    simp only [Store.keys, List.map_cons, List.mem_cons] at h
    push_neg at h
    simp [Store.get?, Ne.symm h.1, ih (by simpa [Store.keys] using h.2)]

theorem Body.nonempty_of_name (b : Body) (n : String) (h : b.Name = some n) :
    b.nonempty = true := by
  simp [Body.nonempty, h]

/-! ### Concrete scenario data (spec section 8) -/

/-- The body of POST with JSON `{"Name": "Alice"}`. -/
def aliceBody : Body := ⟨none, some "Alice", none, none, 0⟩

/-- The body of POST with JSON `{"Name": "Bob", "Grade": "B"}`. -/
def bobBody : Body := ⟨none, some "Bob", some "B", none, 0⟩

/-- The body of POST with JSON `{"Name": "Carl"}`. -/
def carlBody : Body := ⟨none, some "Carl", none, none, 0⟩

/-- Store after POST Alice starting from the empty store. -/
def scenarioStore1 : Store := (create_student [] (some aliceBody)).2.2

/-- Store after the further POST Bob. -/
def scenarioStore2 : Store := (create_student scenarioStore1 (some bobBody)).2.2

/-- Store after the further DELETE of id 1. -/
def scenarioStore3 : Store := (delete_student scenarioStore2 1).2

/-! ### Claims -/

/-- C1: for every store and every POST body containing `Name`, the handler
answers 201 with a record whose ID is `max(existing IDs, default 0) + 1`,
and that record is inserted into the store under that ID. -/
theorem create_student_assigns_max_succ (store : Store) (b : Body) (name : String)
    (h : b.Name = some name) :
    ∃ r : Student,
      create_student store (some b) = (201, some r, Store.insert store r.ID r) ∧
      r.ID = Store.maxKey store + 1 ∧
      Store.get? (create_student store (some b)).2.2 (Store.maxKey store + 1) = some r := by
  refine ⟨⟨Store.maxKey store + 1, name, b.Grade.getD "N/A", b.Email.getD ""⟩, ?_, rfl, ?_⟩
  · simp [create_student, h, Body.nonempty_of_name b name h]
  · simp [create_student, h, Body.nonempty_of_name b name h, Store.get?_insert_self]

/-- Closed instance of `create_student_assigns_max_succ` at the empty store
and the Alice body. -/
theorem create_student_assigns_max_succ_witness :
    ∃ r : Student,
      create_student [] (some aliceBody) = (201, some r, Store.insert [] r.ID r) ∧
      r.ID = Store.maxKey [] + 1 ∧
      Store.get? (create_student [] (some aliceBody)).2.2 (Store.maxKey [] + 1) = some r :=
  create_student_assigns_max_succ [] aliceBody "Alice" rfl

/-- C2 counterexample: in the scenario POST Alice, POST Bob+Grade B,
DELETE id 1, POST Carl, the final POST does NOT answer 201 with ID 2: the
remaining maximal key is 2, so `max + 1` assigns ID 3. -/
theorem scenario_final_id_two_refuted :
    ¬ ((create_student scenarioStore3 (some carlBody)).1 = 201 ∧
      Option.map Student.ID (create_student scenarioStore3 (some carlBody)).2.1 = some 2) := by
  decide

/-- C2 amended: the scenario runs POST Alice to 201 with record ID 1, POST
Bob to 201 with record ID 2, DELETE id 1 to 204, and the final POST Carl to
201 with ID 3 (namely `max(remaining IDs) + 1 = 2 + 1`). -/
theorem scenario_final_id_three :
    create_student [] (some aliceBody) =
      (201, some ⟨1, "Alice", "N/A", ""⟩, [(1, ⟨1, "Alice", "N/A", ""⟩)]) ∧
    (create_student scenarioStore1 (some bobBody)).1 = 201 ∧
    Option.map Student.ID (create_student scenarioStore1 (some bobBody)).2.1 = some 2 ∧
    (delete_student scenarioStore2 1).1 = 204 ∧
    (create_student scenarioStore3 (some carlBody)).1 = 201 ∧
    Option.map Student.ID (create_student scenarioStore3 (some carlBody)).2.1 = some 3 := by
  decide

/-- A sample stored record used in concrete instances. -/
def aliceStudent : Student := ⟨1, "Alice", "N/A", ""⟩

/-- The empty JSON object `\x7b\x7d` as a request body. -/
def emptyBody : Body := ⟨none, none, none, none, 0⟩

/-- C3 counterexample: with a record stored under id 1, PUT of the empty
JSON object answers 400, not 200 as the claim states for any valid JSON
object: `not request.json` is true for an empty dict. -/
theorem update_student_empty_object_rejected :
    (update_student [(1, aliceStudent)] 1 (some emptyBody)).1 = 400 ∧
    (update_student [(1, aliceStudent)] 1 (some emptyBody)).1 ≠ 200 := by
  decide

/-- C3 amended: PUT answers 404 exactly when the id is absent; it answers
400 exactly when the id is present and the body is missing, not JSON, or an
empty JSON object; otherwise (id present, nonempty JSON object) the present
fields are merged into the record and the answer is 200 with it. -/
theorem update_student_status_spec (store : Store) (id : Nat) (body : Option Body) :
    ((update_student store id body).1 = 404 ↔ Store.get? store id = none) ∧
    ((update_student store id body).1 = 400 ↔
      (Store.get? store id).isSome = true ∧ ∀ b, body = some b → b.nonempty = false) ∧
    (∀ s b, Store.get? store id = some s → body = some b → b.nonempty = true →
      update_student store id body =
        (200, some ⟨s.ID, b.Name.getD s.Name, b.Grade.getD s.Grade, b.Email.getD s.Email⟩,
          Store.insert store id
            ⟨s.ID, b.Name.getD s.Name, b.Grade.getD s.Grade, b.Email.getD s.Email⟩)) := by
  cases hg : Store.get? store id with
  | none =>
    cases body with
    | none => simp [update_student, hg]
    | some b => simp [update_student, hg]
  | some st =>
    cases body with
    | none => simp [update_student, hg]
    | some b =>
      cases hb : b.nonempty with
      | false =>
        refine ⟨by simp [update_student, hg, hb], by simp [update_student, hg, hb], ?_⟩
        intro s b' hs hb' hne
        injection hb' with hb2
        subst hb2
        simp [hb] at hne
      | true =>
        refine ⟨by simp [update_student, hg, hb], by simp [update_student, hg, hb], ?_⟩
        intro s b' hs hb' hne
        injection hs with hs2
        subst hs2
        injection hb' with hb2
        subst hb2
        simp [update_student, hg, hb]

/-- Closed instance of `update_student_status_spec`: PUT of a Grade-only
body on a store holding Alice under id 1 merges the grade and answers 200. -/
theorem update_student_status_spec_witness :
    update_student [(1, aliceStudent)] 1 (some ⟨none, none, some "A", none, 0⟩) =
      (200, some ⟨1, "Alice", "A", ""⟩,
        Store.insert [(1, aliceStudent)] 1 ⟨1, "Alice", "A", ""⟩) :=
  (update_student_status_spec [(1, aliceStudent)] 1
        (some ⟨none, none, some "A", none, 0⟩)).2.2
    aliceStudent ⟨none, none, some "A", none, 0⟩ rfl rfl rfl

/-- C4: when a record is stored under an id, a PUT whose body holds exactly
the key `Grade` answers 200 with the same record except for the new grade,
stores it back under the id, and leaves every other key of the store
untouched. -/
theorem update_student_grade_only_frame (store : Store) (id : Nat) (s : Student)
    (g : String) (h : Store.get? store id = some s) :
    update_student store id (some ⟨none, none, some g, none, 0⟩) =
      (200, some ⟨s.ID, s.Name, g, s.Email⟩,
        Store.insert store id ⟨s.ID, s.Name, g, s.Email⟩) ∧
    Store.get? (update_student store id (some ⟨none, none, some g, none, 0⟩)).2.2 id =
      some ⟨s.ID, s.Name, g, s.Email⟩ ∧
    ∀ k, k ≠ id →
      Store.get? (update_student store id (some ⟨none, none, some g, none, 0⟩)).2.2 k =
        Store.get? store k := by
  refine ⟨by simp [update_student, h, Body.nonempty], ?_, ?_⟩
  · simp [update_student, h, Body.nonempty, Store.get?_insert_self]
  · intro k hk
    simp [update_student, h, Body.nonempty, Store.get?_insert_of_ne store id k _ hk]

/-- Closed instance of `update_student_grade_only_frame` at the singleton
Alice store. -/
theorem update_student_grade_only_frame_witness :
    update_student [(1, aliceStudent)] 1 (some ⟨none, none, some "B", none, 0⟩) =
      (200, some ⟨1, "Alice", "B", ""⟩,
        Store.insert [(1, aliceStudent)] 1 ⟨1, "Alice", "B", ""⟩) ∧
    Store.get?
        (update_student [(1, aliceStudent)] 1 (some ⟨none, none, some "B", none, 0⟩)).2.2 1 =
      some ⟨1, "Alice", "B", ""⟩ ∧
    ∀ k, k ≠ 1 →
      Store.get?
          (update_student [(1, aliceStudent)] 1 (some ⟨none, none, some "B", none, 0⟩)).2.2 k =
        Store.get? [(1, aliceStudent)] k :=
  update_student_grade_only_frame [(1, aliceStudent)] 1 aliceStudent "B" rfl

/-- C5: a POST whose body holds `Name` answers 201, and the created record
has `Grade = "N/A"` when the body had no `Grade` and `Email = ""` when the
body had no `Email`. -/
theorem create_student_defaults (store : Store) (b : Body) (name : String)
    (h : b.Name = some name) :
    (create_student store (some b)).1 = 201 ∧
    ∀ r, (create_student store (some b)).2.1 = some r →
      (b.Grade = none → r.Grade = "N/A") ∧ (b.Email = none → r.Email = "") := by
  refine ⟨by simp [create_student, h, Body.nonempty_of_name b name h], ?_⟩
  intro r hr
  simp only [create_student, h, Body.nonempty_of_name b name h] at hr
  simp only [Bool.true_eq_false, if_false] at hr
  injection hr with hr2
  constructor
  · intro hgr
    rw [← hr2]
    simp [hgr]
  · intro hem
    rw [← hr2]
    simp [hem]

/-- Closed instance of `create_student_defaults` at the empty store and the
Carl body, whose `Grade` and `Email` are both absent. -/
theorem create_student_defaults_witness :
    (create_student [] (some carlBody)).1 = 201 ∧
    ∀ r, (create_student [] (some carlBody)).2.1 = some r →
      (carlBody.Grade = none → r.Grade = "N/A") ∧
      (carlBody.Email = none → r.Email = "") :=
  create_student_defaults [] carlBody "Carl" rfl

/-- C6: after a successful POST, GET of the returned ID on the new store
answers 200 with the very record the POST returned. -/
theorem get_after_create_roundtrip (store : Store) (b : Body) (name : String)
    (h : b.Name = some name) :
    ∃ r, (create_student store (some b)).2.1 = some r ∧
      get_student (create_student store (some b)).2.2 r.ID = (200, some r) := by
  refine ⟨⟨Store.maxKey store + 1, name, b.Grade.getD "N/A", b.Email.getD ""⟩, ?_, ?_⟩
  · simp [create_student, h, Body.nonempty_of_name b name h]
  · simp [create_student, get_student, h, Body.nonempty_of_name b name h,
      Store.get?_insert_self]

/-- Closed instance of `get_after_create_roundtrip` at the singleton store
found after creating Alice. -/
theorem get_after_create_roundtrip_witness :
    ∃ r, (create_student scenarioStore1 (some bobBody)).2.1 = some r ∧
      get_student (create_student scenarioStore1 (some bobBody)).2.2 r.ID = (200, some r) :=
  get_after_create_roundtrip scenarioStore1 bobBody "Bob" rfl

/-- C7: a DELETE that answers 204 removes the id: GET of the same id on the
resulting store answers 404 with no record. -/
theorem get_after_delete_not_found (store : Store) (id : Nat)
    (h : (delete_student store id).1 = 204) :
    get_student (delete_student store id).2 id = (404, none) := by
  by_cases hm : id ∈ Store.keys store
  · simp [delete_student, hm, get_student, Store.get?_erase_self]
  · simp [delete_student, hm] at h

/-- Closed instance of `get_after_delete_not_found`: deleting Alice from
the singleton store and reading her id back. -/
theorem get_after_delete_not_found_witness :
    get_student (delete_student [(1, aliceStudent)] 1).2 1 = (404, none) :=
  get_after_delete_not_found [(1, aliceStudent)] 1 (by decide)

/-- C8: a client-supplied `ID` key in the body has no effect: POST and PUT
yield the same answer for any two supplied values, a created record always
carries the server-computed ID, and PUT keeps the stored ID. -/
theorem body_id_ignored (store : Store) (id : Nat) (b : Body) (v w : Int) :
    create_student store (some { b with idField := some v }) =
      create_student store (some { b with idField := some w }) ∧
    (∀ r, (create_student store (some { b with idField := some v })).2.1 = some r →
      r.ID = Store.maxKey store + 1) ∧
    update_student store id (some { b with idField := some v }) =
      update_student store id (some { b with idField := some w }) ∧
    ∀ s r, Store.get? store id = some s →
      (update_student store id (some { b with idField := some v })).2.1 = some r →
      r.ID = s.ID := by
  refine ⟨?_, ?_, ?_, ?_⟩
  · cases hn : b.Name with
    | none => simp [create_student, hn]
    | some name => simp [create_student, hn, Body.nonempty]
  · intro r hr
    cases hn : b.Name with
    | none => simp [create_student, hn] at hr
    | some name =>
      simp only [create_student, hn, Body.nonempty] at hr
      simp only [Option.isSome_some, Bool.true_or, Bool.true_eq_false, if_false] at hr
      injection hr with hr2
      rw [← hr2]
  · cases hg : Store.get? store id with
    | none => simp [update_student, hg]
    | some st => simp [update_student, hg, Body.nonempty]
  · intro s r hs hr
    cases hg : Store.get? store id with
    | none => simp [update_student, hg] at hr
    | some st =>
      rw [hg] at hs
      injection hs with hs2
      subst hs2
      simp only [update_student, hg, Body.nonempty] at hr
      simp only [Option.isSome_some, Bool.true_or, Bool.true_eq_false, if_false] at hr
      injection hr with hr2
      rw [← hr2]

/-- Closed instance of `body_id_ignored`: POST of a Carl body carrying
`ID = 42` still creates the record under ID 1 on the empty store, and the
same body with `ID = 7` gives the identical answer. -/
theorem body_id_ignored_witness :
    create_student [] (some { carlBody with idField := some 42 }) =
      create_student [] (some { carlBody with idField := some 7 }) ∧
    (⟨1, "Carl", "N/A", ""⟩ : Student).ID = Store.maxKey [] + 1 :=
  ⟨(body_id_ignored [] 1 carlBody 42 7).1,
    (body_id_ignored [] 1 carlBody 42 7).2.1 ⟨1, "Carl", "N/A", ""⟩ (by decide)⟩

/-! ### Reachable stores and the key/ID invariant -/

/-- A mutating request against the service: the body-carrying POST and PUT
and the id-carrying PUT and DELETE.  GET handlers never write the store. -/
inductive StoreOp where
  | create (body : Option Body)
  | update (id : Nat) (body : Option Body)
  | delete (id : Nat)

/-- The store left behind by one request. -/
def applyOp (store : Store) : StoreOp → Store
  | .create b => (create_student store b).2.2
  | .update i b => (update_student store i b).2.2
  | .delete i => (delete_student store i).2

/-- The store reached from the initial empty dictionary `students = {}` by
a sequence of requests. -/
def runOps (ops : List StoreOp) : Store := ops.foldl applyOp []

/-- Dictionary well-formedness: keys are distinct, and every stored record
carries its own key in its `ID` field. -/
def StoreWF (s : Store) : Prop :=
  (Store.keys s).Nodup ∧ ∀ p ∈ s, p.2.ID = p.1

theorem Store.mem_keys_insert (s : Store) (k a : Nat) (v : Student)
    (h : a ∈ Store.keys (Store.insert s k v)) :
    a ∈ Store.keys s ∨ a = k := by
  induction s with
  | nil => simpa [Store.insert, Store.keys] using h
  | cons p rest ih =>
    by_cases hp : p.1 = k
    · simp [Store.insert, Store.keys, hp] at h ⊢
      tauto
    · simp only [Store.insert, hp, if_false, Store.keys, List.map_cons, List.mem_cons] at h
      rcases h with h | h
      · exact Or.inl (by simp [Store.keys, h])
      · rcases ih h with h2 | h2
        · exact Or.inl (by simp [Store.keys] at h2 ⊢; exact Or.inr h2)
        · exact Or.inr h2

theorem Store.nodup_keys_insert (s : Store) (k : Nat) (v : Student)
    (h : (Store.keys s).Nodup) :
    (Store.keys (Store.insert s k v)).Nodup := by
  induction s with
  | nil => simp [Store.insert, Store.keys]
  | cons p rest ih =>
    simp only [Store.keys, List.map_cons, List.nodup_cons] at h
    by_cases hp : p.1 = k
    · simp only [Store.insert, hp, if_true, Store.keys, List.map_cons, List.nodup_cons]
      exact ⟨by rw [← hp]; exact h.1, h.2⟩
    · simp only [Store.insert, hp, if_false, Store.keys, List.map_cons, List.nodup_cons]
      refine ⟨?_, ih h.2⟩
      intro hmem
      rcases Store.mem_keys_insert rest k p.1 v hmem with h2 | h2
      · exact h.1 h2
      · exact hp h2

theorem Store.mem_insert (s : Store) (k : Nat) (v : Student) (p : Nat × Student)
    (h : p ∈ Store.insert s k v) :
    p ∈ s ∨ p = (k, v) := by
  induction s with
  | nil =>
    simp only [Store.insert, List.mem_singleton] at h
    exact Or.inr h
  | cons q rest ih =>
    by_cases hq : q.1 = k
    · simp only [Store.insert, hq, if_true, List.mem_cons] at h
      rcases h with h | h
      · exact Or.inr (by simp [h])
      · exact Or.inl (List.mem_cons_of_mem q h)
    · simp only [Store.insert, hq, if_false, List.mem_cons] at h
      rcases h with h | h
      · exact Or.inl (by simp [h])
      · rcases ih h with h2 | h2
        · exact Or.inl (List.mem_cons_of_mem q h2)
        · exact Or.inr h2

theorem Store.ids_insert (s : Store) (k : Nat) (v : Student)
    (h : ∀ p ∈ s, p.2.ID = p.1) (hv : v.ID = k) :
    ∀ p ∈ Store.insert s k v, p.2.ID = p.1 := by
  intro p hp
  rcases Store.mem_insert s k v p hp with h2 | h2
  · exact h p h2
  · rw [h2]
    exact hv

theorem Store.erase_sublist (s : Store) (k : Nat) :
    (Store.erase s k).Sublist s := by
  induction s with
  | nil => simp [Store.erase]
  | cons p rest ih =>
    by_cases hp : p.1 = k
    · simp only [Store.erase, if_pos hp]
      exact ih.trans (List.sublist_cons_self p rest)
    · simp only [Store.erase, if_neg hp]
      exact ih.cons₂ p

theorem Store.keys_erase_sublist (s : Store) (k : Nat) :
    (Store.keys (Store.erase s k)).Sublist (Store.keys s) :=
  (Store.erase_sublist s k).map Prod.fst

theorem Store.mem_erase_sub (s : Store) (k : Nat) (p : Nat × Student)
    (h : p ∈ Store.erase s k) :
    p ∈ s := by
  induction s with
  | nil => simp [Store.erase] at h
  | cons q rest ih =>
    by_cases hq : q.1 = k
    · simp only [Store.erase, hq, if_true] at h
      exact List.mem_cons_of_mem q (ih h)
    · simp only [Store.erase, hq, if_false, List.mem_cons] at h
      rcases h with h | h
      · exact by simp [h]
      · exact List.mem_cons_of_mem q (ih h)

theorem Store.mem_of_get?_eq_some (s : Store) (k : Nat) (v : Student)
    (h : Store.get? s k = some v) :
    (k, v) ∈ s := by
  induction s with
  | nil => simp [Store.get?] at h
  | cons p rest ih =>
    by_cases hp : p.1 = k
    · simp only [Store.get?, hp, if_true] at h
      injection h with h2
      subst h2
      exact by simp [← hp]
    · simp only [Store.get?, hp, if_false] at h
      exact List.mem_cons_of_mem p (ih h)

/-- One request preserves dictionary well-formedness. -/
theorem applyOp_wf (store : Store) (op : StoreOp) (h : StoreWF store) :
    StoreWF (applyOp store op) := by
  obtain ⟨hnd, hid⟩ := h
  cases op with
  | create body =>
    cases body with
    | none => exact ⟨hnd, hid⟩
    | some b =>
      cases hn : b.Name with
      | none =>
        have he : applyOp store (StoreOp.create (some b)) = store := by
          simp [applyOp, create_student, hn]
        rw [he]
        exact ⟨hnd, hid⟩
      | some name =>
        simp only [applyOp, create_student, hn, Body.nonempty_of_name b name hn,
          Bool.true_eq_false, if_false]
        exact ⟨Store.nodup_keys_insert store _ _ hnd,
          Store.ids_insert store _ _ hid rfl⟩
  | update id body =>
    cases hg : Store.get? store id with
    | none =>
      have he : applyOp store (StoreOp.update id body) = store := by
        simp [applyOp, update_student, hg]
      rw [he]
      exact ⟨hnd, hid⟩
    | some st =>
      cases body with
      | none =>
        have he : applyOp store (StoreOp.update id none) = store := by
          simp [applyOp, update_student, hg]
        rw [he]
        exact ⟨hnd, hid⟩
      | some b =>
        cases hb : b.nonempty with
        | false =>
          have he : applyOp store (StoreOp.update id (some b)) = store := by
            simp [applyOp, update_student, hg, hb]
          rw [he]
          exact ⟨hnd, hid⟩
        | true =>
          have hkey : st.ID = id := hid (id, st) (Store.mem_of_get?_eq_some store id st hg)
          simp only [applyOp, update_student, hg, hb, Bool.true_eq_false, if_false]
          exact ⟨Store.nodup_keys_insert store _ _ hnd,
            Store.ids_insert store _ _ hid hkey⟩
  | delete id =>
    by_cases hm : id ∈ Store.keys store
    · simp only [applyOp, delete_student, hm, if_true]
      exact ⟨hnd.sublist (Store.keys_erase_sublist store id),
        fun p hp => hid p (Store.mem_erase_sub store id p hp)⟩
    · have he : applyOp store (StoreOp.delete id) = store := by
        simp [applyOp, delete_student, hm]
      rw [he]
      exact ⟨hnd, hid⟩

theorem foldl_applyOp_wf (ops : List StoreOp) (store : Store) (h : StoreWF store) :
    StoreWF (List.foldl applyOp store ops) := by
  induction ops generalizing store with
  | nil => exact h
  | cons op rest ih => exact ih (applyOp store op) (applyOp_wf store op h)

theorem runOps_wf (ops : List StoreOp) : StoreWF (runOps ops) :=
  foldl_applyOp_wf ops [] ⟨List.nodup_nil, by simp⟩

theorem Store.map_id_eq_keys (s : Store) (h : ∀ p ∈ s, p.2.ID = p.1) :
    List.map (fun p => p.2.ID) s = Store.keys s := by
  induction s with
  | nil => simp [Store.keys]
  | cons p rest ih =>
    simp only [List.map_cons, Store.keys]
    rw [h p (by simp), ih (fun q hq => h q (List.mem_cons_of_mem p hq))]
    rfl

/-- C9: on every store reachable from the empty one by create, update and
delete requests, each stored record carries its own dictionary key in its
`ID` field, and no two stored records share an `ID`. -/
theorem reachable_store_ids_consistent (ops : List StoreOp) :
    (∀ p ∈ runOps ops, p.2.ID = p.1) ∧
    (List.map (fun p => p.2.ID) (runOps ops)).Nodup := by
  obtain ⟨hnd, hid⟩ := runOps_wf ops
  exact ⟨hid, by rw [Store.map_id_eq_keys (runOps ops) hid]; exact hnd⟩

/-- Closed instance of `reachable_store_ids_consistent` after one create:
the single stored record carries its key 1 as its ID, and the ID list has
no duplicate. -/
theorem reachable_store_ids_consistent_witness :
    aliceStudent.ID = 1 ∧
    (List.map (fun p => p.2.ID) (runOps [StoreOp.create (some aliceBody)])).Nodup :=
  ⟨(reachable_store_ids_consistent [StoreOp.create (some aliceBody)]).1
      (1, aliceStudent) (by decide),
    (reachable_store_ids_consistent [StoreOp.create (some aliceBody)]).2⟩

/-- C10: a request answered with an error status leaves the store exactly
as it was: POST with 400, PUT with 400 or 404, and DELETE with 404 write
nothing.  GET handlers return no store at all in this embedding, mirroring
that they never assign in the source. -/
theorem error_paths_preserve_store (store : Store) (id : Nat) (body : Option Body) :
    ((create_student store body).1 = 400 → (create_student store body).2.2 = store) ∧
    ((update_student store id body).1 = 400 ∨ (update_student store id body).1 = 404 →
      (update_student store id body).2.2 = store) ∧
    ((delete_student store id).1 = 404 → (delete_student store id).2 = store) := by
  refine ⟨?_, ?_, ?_⟩
  · intro h
    cases body with
    | none => rfl
    | some b =>
      cases hn : b.Name with
      | none => simp [create_student, hn]
      | some name =>
        cases hb : b.nonempty with
        | false => simp [create_student, hn, hb]
        | true => simp [create_student, hn, hb] at h
  · intro h
    cases hg : Store.get? store id with
    | none => simp [update_student, hg]
    | some st =>
      cases body with
      | none => simp [update_student, hg]
      | some b =>
        cases hb : b.nonempty with
        | false => simp [update_student, hg, hb]
        | true => simp [update_student, hg, hb] at h
  · intro h
    by_cases hm : id ∈ Store.keys store
    · simp [delete_student, hm] at h
    · simp [delete_student, hm]

/-- Closed instance of `error_paths_preserve_store`: PUT on the empty store
answers 404 and leaves the store empty. -/
theorem error_paths_preserve_store_witness :
    (update_student [] 1 (some aliceBody)).2.2 = ([] : Store) :=
  (error_paths_preserve_store [] 1 (some aliceBody)).2.1 (by decide)
